import Mathlib

/-!
Formalization of the tactile contact-merging engine of the `tactile_toolbox`
package: the sensor geometry table, per-sensor value buffer, contact
extractor and contact merger/tracker, together with the ROS node glue in
`src/merger_node.cpp`.

The repository ships `src/merger_node.cpp` (the node driving the merger),
the rviz display `src/tactile_state_display.cpp` and the
`TactileContact` message definition, but the merger implementation itself
(`merger.h` / `merger.cpp`, included by `merger_node.cpp`) is not part of
the source tree here.  The merger's data model and algorithms are therefore
modelled from the specification; the node-level definitions are translated
from `merger_node.cpp` directly.

Scalars are modelled as exact rationals.
-/

namespace Tactile

/-- A 3D vector / point with rational coordinates, standing for the
`geometry_msgs` point and vector types used by the merger. -/
structure Vec3 where
  x : ℚ
  y : ℚ
  z : ℚ
deriving DecidableEq

namespace Vec3

def add (a b : Vec3) : Vec3 := ⟨a.x + b.x, a.y + b.y, a.z + b.z⟩

def zero : Vec3 := ⟨0, 0, 0⟩

def smul (q : ℚ) (v : Vec3) : Vec3 := ⟨q * v.x, q * v.y, q * v.z⟩

instance : Add Vec3 := ⟨add⟩
instance : Zero Vec3 := ⟨zero⟩
instance : SMul ℚ Vec3 := ⟨smul⟩

@[simp] theorem add_mk (a b c d e f : ℚ) :
    (⟨a, b, c⟩ + ⟨d, e, f⟩ : Vec3) = ⟨a + d, b + e, c + f⟩ := rfl

@[simp] theorem zero_mk : (0 : Vec3) = ⟨0, 0, 0⟩ := rfl

@[simp] theorem smul_mk (q a b c : ℚ) :
    (q • (⟨a, b, c⟩ : Vec3)) = ⟨q * a, q * b, q * c⟩ := rfl

@[simp] theorem add_zero_right (v : Vec3) : v + 0 = v := by
  show Vec3.add v Vec3.zero = v
  cases v
  simp [Vec3.add, Vec3.zero]

/-- Dot product. -/
def dot (a b : Vec3) : ℚ := a.x * b.x + a.y * b.y + a.z * b.z

/-- Squared Euclidean distance between two points (radius and cutoff
comparisons are stated on squares, avoiding square roots). -/
def sqDist (a b : Vec3) : ℚ :=
  (a.x - b.x) * (a.x - b.x) + (a.y - b.y) * (a.y - b.y) + (a.z - b.z) * (a.z - b.z)

end Vec3

/-- Largest `k ≤ fuel` with `k * k ≤ n` (structural search from above). -/
def isqrtAux (n : ℕ) : ℕ → ℕ
  | 0 => 0
  | k + 1 => if (k + 1) * (k + 1) ≤ n then k + 1 else isqrtAux n k

/-- Integer square root (largest `k` with `k * k ≤ n`). -/
def isqrt (n : ℕ) : ℕ := isqrtAux n n

/-- Exact rational square root: `some s` with `s * s = q` when such a
rational exists, `none` otherwise. -/
def ratSqrt (q : ℚ) : Option ℚ :=
  let sn := isqrt q.num.toNat
  let sd := isqrt q.den
  if 0 ≤ q ∧ (sn * sn : ℤ) = q.num ∧ sd * sd = q.den then some ((sn : ℚ) / (sd : ℚ))
  else none

/-- Modelled from the spec: re-normalization of a direction vector to unit
length (§4.3 step 3), the merger sources being absent from the tree.  Exact
over ℚ: when the Euclidean norm of `v` is a rational `n ≠ 0` the result is
`(1/n) • v`; a zero vector is returned unchanged (the all-weights-zero
cluster case is excluded before normalization is ever used), and a vector
whose norm is irrational is left unscaled. -/
def normalize (v : Vec3) : Vec3 :=
  match ratSqrt (Vec3.dot v v) with
  | some n => if n = 0 then v else (1 / n) • v
  | none => v

/-- One taxel of a sensor: position and surface normal in the reference
frame (§3 Taxel Geometry). -/
structure Taxel where
  position : Vec3
  normal : Vec3
deriving DecidableEq

/-- Modelled from the spec: the Sensor Geometry Table (§4.1), a per-sensor
ordered sequence of taxels, populated once at startup. -/
def GeomTable := List (String × List Taxel)

/-- Modelled from the spec: `lookup(sensor_name)` on the Sensor Geometry
Table; `none` models the `UnknownSensor` failure for unregistered names. -/
def lookupGeom (g : GeomTable) (s : String) : Option (List Taxel) :=
  match g with
  | [] => none
  | (n, ts) :: rest => if n = s then some ts else lookupGeom rest s

/-- Configuration surface of the engine (§6): activation threshold,
neighbor clustering radius, match distance cutoff, expiry timeout. -/
structure Config where
  threshold : ℚ
  radius : ℚ
  cutoff : ℚ
  timeout : ℚ
deriving DecidableEq

/-- An active taxel paired with its scalar reading, input to clustering. -/
structure ActiveTaxel where
  position : Vec3
  normal : Vec3
  value : ℚ
deriving DecidableEq

/-- Modelled from the spec: §4.3 step 1, pairing of a sensor's reading with
its geometry and discarding taxels whose value is below the activation
threshold. -/
def activeTaxels (cfg : Config) (geom : List Taxel) (values : List ℚ) : List ActiveTaxel :=
  (List.zip geom values).filterMap fun p =>
    if cfg.threshold ≤ p.2 then some ⟨p.1.position, p.1.normal, p.2⟩ else none

/-- Adjacency of the proximity graph (§4.3 step 2): two taxels are adjacent
iff their positions are within the configured neighbor radius. -/
def touches (cfg : Config) (t : ActiveTaxel) (cl : List ActiveTaxel) : Bool :=
  cl.any fun u => Vec3.sqDist t.position u.position ≤ cfg.radius * cfg.radius

/-- One step of the connected-components computation: a new taxel absorbs
every existing cluster it touches. -/
def addToClusters (cfg : Config) (cls : List (List ActiveTaxel)) (t : ActiveTaxel) :
    List (List ActiveTaxel) :=
  (t :: (cls.filter (touches cfg t)).flatten) :: cls.filter (fun c => !touches cfg t c)

/-- Modelled from the spec: §4.3 step 2, clustering of the active taxels
into spatially connected groups over the proximity graph. -/
def clustersOf (cfg : Config) (ts : List ActiveTaxel) : List (List ActiveTaxel) :=
  ts.foldl (addToClusters cfg) []

/-- An ephemeral contact candidate produced by one extraction pass (§3). -/
structure Candidate where
  source : String
  position : Vec3
  normal : Vec3
  magnitude : ℚ
deriving DecidableEq

/-- Total weight of a cluster: the sum of its members' scalar values. -/
def clusterWeight (cl : List ActiveTaxel) : ℚ := (cl.map (fun t => t.value)).sum

/-- Magnitude-weighted sum of the member taxel positions. -/
def weightedPosSum (cl : List ActiveTaxel) : Vec3 :=
  (cl.map (fun t => t.value • t.position)).sum

/-- Magnitude-weighted sum of the member taxel normals. -/
def weightedNormSum (cl : List ActiveTaxel) : Vec3 :=
  (cl.map (fun t => t.value • t.normal)).sum

/-- Modelled from the spec: §4.3 step 3, per-cluster candidate fields:
magnitude-weighted centroid position, re-normalized magnitude-weighted
average normal, magnitude the sum of member values; a cluster whose weights
sum to zero (`DegenerateCluster`, §7) yields no candidate. -/
def candOf (src : String) (cl : List ActiveTaxel) : Option Candidate :=
  let w := clusterWeight cl
  if w = 0 then none
  else some
    { source := src
      position := (1 / w) • weightedPosSum cl
      normal := normalize ((1 / w) • weightedNormSum cl)
      magnitude := w }

/-- Modelled from the spec: the Contact Extractor (§4.3), absent from the
tree with the rest of merger.h/merger.cpp: threshold, cluster, emit one
candidate per non-degenerate cluster tagged with the source sensor. -/
def extract (cfg : Config) (src : String) (geom : List Taxel) (values : List ℚ) :
    List Candidate :=
  (clustersOf cfg (activeTaxels cfg geom values)).filterMap (candOf src)

/-- A wrench (force and torque), as carried by the published
`TactileContact` message. -/
structure Wrench where
  force : Vec3
  torque : Vec3
deriving DecidableEq

/-- Modelled from the spec: the wrench of a contact (§4.4), the force
directed along the contact normal scaled by the contact magnitude,
expressed in the reference frame (positions and normals here are already
reference-frame quantities); no torque contribution. -/
def wrenchOf (c : Candidate) : Wrench :=
  { force := c.magnitude • c.normal, torque := Vec3.zero }

/-- The long-lived tracked Contact Event (§3), owned by the merger. -/
structure ContactEvent where
  id : String
  sensor : String
  position : Vec3
  normal : Vec3
  magnitude : ℚ
  wrench : Wrench
  last_update : ℚ
deriving DecidableEq

/-- Error kinds of the engine (§7). -/
inductive MergerError where
  | UnknownSensor
  | SizeMismatch
deriving DecidableEq

/-- The most recent stored reading per sensor name (§4.2). -/
def Readings := List (String × ℚ × List ℚ)

/-- Latest-wins replacement of the stored reading for one sensor. -/
def setReading (rs : Readings) (s : String) (t : ℚ) (v : List ℚ) : Readings :=
  match rs with
  | [] => [(s, t, v)]
  | (n, r) :: rest =>
      if n = s then (s, t, v) :: rest else (n, r) :: setReading rest s t v

/-- Modelled from the spec: the Per-Sensor Value Buffer update (§4.2):
fails with `UnknownSensor` when the sensor is not in the geometry table,
with `SizeMismatch` when the reading length disagrees with the registered
taxel count, and otherwise replaces the stored reading; the sensor's
geometry is returned alongside for the extraction pass. -/
def bufferUpdate (geom : GeomTable) (rs : Readings) (s : String) (t : ℚ) (v : List ℚ) :
    Except MergerError (List Taxel × Readings) :=
  match lookupGeom geom s with
  | none => .error .UnknownSensor
  | some g =>
      if v.length = g.length then .ok (g, setReading rs s t v)
      else .error .SizeMismatch

/-- Fresh contact id minted from the merger's counter. -/
def mintId (n : ℕ) : String := "contact" ++ toString n

/-- A new Contact Event spawned from an unmatched candidate (§4.4 step 4). -/
def newEvent (s : String) (n : ℕ) (t : ℚ) (c : Candidate) : ContactEvent :=
  { id := mintId n, sensor := s, position := c.position, normal := c.normal,
    magnitude := c.magnitude, wrench := wrenchOf c, last_update := t }

/-- A matched Contact Event refreshed in place (§4.4 step 3): position,
normal and wrench replaced by the candidate's, `last_update` refreshed, id
kept. -/
def refreshEvent (t : ℚ) (c : Candidate) (e : ContactEvent) : ContactEvent :=
  { e with
    position := c.position
    normal := c.normal
    magnitude := c.magnitude
    wrench := wrenchOf c
    last_update := t }

/-- Nearest event of the pool to position `p` within the match cutoff
(squared comparison), together with the rest of the pool; ties prefer the
earlier event.  `none` when no event is within the cutoff. -/
def pickNearest (cutoff2 : ℚ) (p : Vec3) :
    List ContactEvent → Option (ContactEvent × List ContactEvent)
  | [] => none
  | e :: es =>
      match pickNearest cutoff2 p es with
      | none => if Vec3.sqDist p e.position ≤ cutoff2 then some (e, es) else none
      | some (b, rest) =>
          if Vec3.sqDist p e.position ≤ cutoff2 ∧
             Vec3.sqDist p e.position ≤ Vec3.sqDist p b.position
          then some (e, es)
          else some (b, e :: rest)

/-- Modelled from the spec: greedy reconciliation (§4.4 steps 2–5) of this
sensor's candidates against this sensor's existing events: each candidate
in turn is matched to the nearest remaining event within the cutoff and
refreshes it, or spawns a new event with a freshly minted id; leftover
events that matched no candidate are kept untouched. Returns the new event
list for this sensor and the updated id counter. -/
def matchCands (t : ℚ) (cutoff2 : ℚ) (s : String) :
    List Candidate → List ContactEvent → ℕ → List ContactEvent × ℕ
  | [], pool, n => (pool, n)
  | c :: cs, pool, n =>
      match pickNearest cutoff2 c.position pool with
      | some (e, rest) =>
          let r := matchCands t cutoff2 s cs rest n
          (refreshEvent t c e :: r.1, r.2)
      | none =>
          let r := matchCands t cutoff2 s cs pool (n + 1)
          (newEvent s n t c :: r.1, r.2)

/-- Modelled from the spec: the full state of the Contact Merger / Tracker
(§4.4): geometry table, value buffer, live contact set and id counter. -/
structure MergerState where
  geom : GeomTable
  readings : Readings
  contacts : List ContactEvent
  nextId : ℕ

/-- The merger state right after `init()`: geometry loaded, no readings,
no live contacts. -/
def initState (g : GeomTable) : MergerState :=
  { geom := g, readings := [], contacts := [], nextId := 0 }

/-- The live events belonging to sensor `s` (§4.4 step 1 partition). -/
def contactsFor (s : String) (es : List ContactEvent) : List ContactEvent :=
  es.filter fun e => e.sensor = s

/-- The live events belonging to sensors other than `s` (§4.4 step 1). -/
def contactsNotFor (s : String) (es : List ContactEvent) : List ContactEvent :=
  es.filter fun e => ¬(e.sensor = s)

/-- Modelled from the spec: `update(sensor_name, timestamp, values)`
(§4.4): feed the reading into the Value Buffer (propagating its errors),
run the Contact Extractor, and reconcile the candidates against the live
events of this sensor, leaving other sensors' events untouched. -/
def update (cfg : Config) (st : MergerState) (s : String) (t : ℚ) (v : List ℚ) :
    Except MergerError MergerState :=
  match bufferUpdate st.geom st.readings s t v with
  | .error e => .error e
  | .ok (g, rs) =>
      let cands := extract cfg s g v
      let r := matchCands t (cfg.cutoff * cfg.cutoff) s cands
        (contactsFor s st.contacts) st.nextId
      .ok { st with
            readings := rs
            contacts := contactsNotFor s st.contacts ++ r.1
            nextId := r.2 }

/-- The caller-side behavior on a failed `update` (§7): the error is
logged and the previous state is kept; a successful update replaces the
state. -/
def updateOrKeep (cfg : Config) (st : MergerState) (s : String) (t : ℚ) (v : List ℚ) :
    MergerState :=
  match update cfg st s t v with
  | .ok st' => st'
  | .error _ => st

/-- Modelled from the spec: the expiry sweep (§4.4 step 6): remove every
event with `now - last_update > timeout`. -/
def expireSweep (cfg : Config) (now : ℚ) (es : List ContactEvent) : List ContactEvent :=
  es.filter fun e => decide (now - e.last_update ≤ cfg.timeout)

/-- Modelled from the spec: `get_contacts()` (§4.4), with the expiry sweep
run lazily before the frozen copy of the live set is returned. -/
def getContacts (cfg : Config) (now : ℚ) (st : MergerState) : List ContactEvent :=
  expireSweep cfg now st.contacts

/-- One per-sensor entry of a `tactile_msgs/TactileState` message
(`name`, `values`), as consumed by `merger_node.cpp`. -/
structure SensorEntry where
  name : String
  values : List ℚ

/-- A `tactile_msgs/TactileState` message: one header stamp and a list of
per-sensor entries. -/
structure TactileState where
  stamp : ℚ
  sensors : List SensorEntry

/-- One recorded invocation of `Merger::update`. -/
structure UpdateCall where
  stamp : ℚ
  name : String
  values : List ℚ
deriving DecidableEq

/-- `message_handler` of `src/merger_node.cpp`: for each sensor entry of
the incoming message, in order, call `merger.update` with the message's
header stamp, that entry's name and its values.  The returned trace
records the update calls made, in order. -/
def message_handler (cfg : Config) (st : MergerState) (msg : TactileState) :
    MergerState × List UpdateCall :=
  msg.sensors.foldl
    (fun acc sd =>
      (updateOrKeep cfg acc.1 sd.name msg.stamp sd.values,
       acc.2 ++ [⟨msg.stamp, sd.name, sd.values⟩]))
    (st, [])

/-- A sequence of `update` calls for one sensor, applied in order. -/
def runUpdates (cfg : Config) (s : String) (st : MergerState) :
    List (ℚ × List ℚ) → MergerState
  | [] => st
  | (t, v) :: rest => runUpdates cfg s (updateOrKeep cfg st s t v) rest

/-- The readings of `steps` keep one spatial cluster of sensor `s`
continuously active: each update's buffer write succeeds, its extraction
yields exactly one candidate, and that candidate lies within the match
cutoff of every event currently tracked for `s`. -/
def KeepsCluster (cfg : Config) (s : String) :
    MergerState → List (ℚ × List ℚ) → Prop
  | _, [] => True
  | st, (t, v) :: rest =>
      (∃ g rs, bufferUpdate st.geom st.readings s t v = .ok (g, rs) ∧
        ∃ c, extract cfg s g v = [c] ∧
          ∀ e ∈ contactsFor s st.contacts,
            Vec3.sqDist c.position e.position ≤ cfg.cutoff * cfg.cutoff) ∧
      KeepsCluster cfg s (updateOrKeep cfg st s t v) rest

/-- The published-wrench convention: force along the contact normal scaled
by the contact magnitude (all quantities in the reference frame), zero
torque. -/
def WrenchOK (e : ContactEvent) : Prop :=
  e.wrench.force = e.magnitude • e.normal ∧ e.wrench.torque = Vec3.zero

/-- States of the merger reachable from `init()` by any sequence of
(possibly failing) `update` calls. -/
inductive Reachable (cfg : Config) (g : GeomTable) : MergerState → Prop
  | init : Reachable cfg g (initState g)
  | step (st : MergerState) (s : String) (t : ℚ) (v : List ℚ) :
      Reachable cfg g st → Reachable cfg g (updateOrKeep cfg st s t v)

/-! ### The "palm" end-to-end scenario (§8) -/

/-- The four taxels of the "palm" sensor: positions `(0,0,0)`, `(1,0,0)`,
`(0,1,0)`, `(1,1,0)`, all normals `(0,0,1)`. -/
def palmTaxels : List Taxel :=
  [ ⟨⟨0, 0, 0⟩, ⟨0, 0, 1⟩⟩, ⟨⟨1, 0, 0⟩, ⟨0, 0, 1⟩⟩,
    ⟨⟨0, 1, 0⟩, ⟨0, 0, 1⟩⟩, ⟨⟨1, 1, 0⟩, ⟨0, 0, 1⟩⟩ ]

/-- Geometry table with the single sensor "palm". -/
def palmGeom : GeomTable := [("palm", palmTaxels)]

/-- Scenario configuration: activation threshold 1, neighbor radius 3/2,
match cutoff 1, expiry timeout 1. -/
def palmCfg : Config := { threshold := 1, radius := 3 / 2, cutoff := 1, timeout := 1 }

/-- Merger state after the reading `[10, 10, 0, 0]` at `t = 0`. -/
def palmSt1 : MergerState :=
  updateOrKeep palmCfg (initState palmGeom) "palm" 0 [10, 10, 0, 0]

/-- Merger state after the further reading `[0, 0, 0, 0]` at `t = 2`. -/
def palmSt2 : MergerState := updateOrKeep palmCfg palmSt1 "palm" 2 [0, 0, 0, 0]

/-- The candidate extracted from the palm reading `[10, 10, 0, 0]`. -/
def palmCand : Candidate :=
  { source := "palm", position := ⟨1 / 2, 0, 0⟩, normal := ⟨0, 0, 1⟩, magnitude := 20 }

/-- The single cluster of active palm taxels (in the order the
connected-components fold produces it). -/
def palmCluster : List ActiveTaxel :=
  [ ⟨⟨1, 0, 0⟩, ⟨0, 0, 1⟩, 10⟩, ⟨⟨0, 0, 0⟩, ⟨0, 0, 1⟩, 10⟩ ]

/-- The Contact Event tracked after the first palm reading. -/
def palmEvent : ContactEvent :=
  { id := mintId 0, sensor := "palm", position := ⟨1 / 2, 0, 0⟩,
    normal := ⟨0, 0, 1⟩, magnitude := 20,
    wrench := { force := ⟨0, 0, 20⟩, torque := ⟨0, 0, 0⟩ }, last_update := 0 }

/-- Two successive palm readings keeping the same cluster active. -/
def palmSteps : List (ℚ × List ℚ) :=
  [(0, [10, 10, 0, 0]), (1, [10, 10, 0, 0])]

/-! ### Basic lemmas about the reconciliation machinery -/

theorem filter_idem {α : Type} (p : α → Bool) (l : List α) :
    (l.filter p).filter p = l.filter p := by
  induction l with
  | nil => rfl
  | cons a as ih =>
      by_cases h : p a
      · simp [List.filter_cons, h, ih]
      · simp [List.filter_cons, h, ih]

theorem pickNearest_mem (c2 : ℚ) (p : Vec3) (l : List ContactEvent)
    (e : ContactEvent) (rest : List ContactEvent)
    (h : pickNearest c2 p l = some (e, rest)) :
    e ∈ l ∧ ∀ x ∈ rest, x ∈ l := by
  induction l generalizing e rest with
  | nil => simp [pickNearest] at h
  | cons a as ih =>
      rw [pickNearest] at h
      cases hrec : pickNearest c2 p as with
      | none =>
          simp only [hrec] at h
          split at h
          · simp only [Option.some.injEq, Prod.mk.injEq] at h
            obtain ⟨rfl, rfl⟩ := h
            exact ⟨List.mem_cons_self a as, fun x hx => List.mem_cons_of_mem a hx⟩
          · simp at h
      | some br =>
          obtain ⟨b, rest'⟩ := br
          simp only [hrec] at h
          obtain ⟨hb, hrest'⟩ := ih b rest' hrec
          split at h
          · simp only [Option.some.injEq, Prod.mk.injEq] at h
            obtain ⟨rfl, rfl⟩ := h
            exact ⟨List.mem_cons_self a as, fun x hx => List.mem_cons_of_mem a hx⟩
          · simp only [Option.some.injEq, Prod.mk.injEq] at h
            obtain ⟨rfl, rfl⟩ := h
            refine ⟨List.mem_cons_of_mem a hb, fun x hx => ?_⟩
            rcases List.mem_cons.mp hx with rfl | hx
            · exact List.mem_cons_self x as
            · exact List.mem_cons_of_mem a (hrest' x hx)

theorem matchCands_forall (P : ContactEvent → Prop) (t c2 : ℚ) (s : String)
    (cs : List Candidate) (pool : List ContactEvent) (n : ℕ)
    (hpool : ∀ x ∈ pool, P x)
    (href : ∀ (c : Candidate) (e : ContactEvent), P e → P (refreshEvent t c e))
    (hnew : ∀ (c : Candidate) (k : ℕ), P (newEvent s k t c)) :
    ∀ x ∈ (matchCands t c2 s cs pool n).1, P x := by
  induction cs generalizing pool n with
  | nil => simpa [matchCands] using hpool
  | cons c cs ih =>
      intro x hx
      rw [matchCands] at hx
      cases hpick : pickNearest c2 c.position pool with
      | none =>
          rw [hpick] at hx
          simp only [List.mem_cons] at hx
          rcases hx with rfl | hx
          · exact hnew c n
          · exact ih pool (n + 1) hpool x hx
      | some er =>
          obtain ⟨e, rest⟩ := er
          rw [hpick] at hx
          obtain ⟨he, hrest⟩ := pickNearest_mem c2 c.position pool e rest hpick
          simp only [List.mem_cons] at hx
          rcases hx with rfl | hx
          · exact href c e (hpool e he)
          · exact ih rest n (fun y hy => hpool y (hrest y hy)) x hx

theorem contactsFor_matchCands (t c2 : ℚ) (s : String) (cs : List Candidate)
    (pool : List ContactEvent) (n : ℕ) (hpool : ∀ x ∈ pool, x.sensor = s) :
    ∀ x ∈ (matchCands t c2 s cs pool n).1, x.sensor = s :=
  matchCands_forall (fun x => x.sensor = s) t c2 s cs pool n hpool
    (fun _ _ h => h) (fun _ _ => rfl)

theorem contactsFor_mem_sensor (s : String) (es : List ContactEvent) :
    ∀ x ∈ contactsFor s es, x.sensor = s := by
  intro x hx
  have := List.mem_filter.mp hx
  simpa using this.2

theorem update_ok_shape (cfg : Config) (st : MergerState) (s : String) (t : ℚ)
    (v : List ℚ) (g : List Taxel) (rs : Readings)
    (hb : bufferUpdate st.geom st.readings s t v = .ok (g, rs)) :
    update cfg st s t v = .ok
      { st with
        readings := rs
        contacts := contactsNotFor s st.contacts ++
          (matchCands t (cfg.cutoff * cfg.cutoff) s (extract cfg s g v)
            (contactsFor s st.contacts) st.nextId).1
        nextId := (matchCands t (cfg.cutoff * cfg.cutoff) s (extract cfg s g v)
          (contactsFor s st.contacts) st.nextId).2 } := by
  rw [update]
  simp only [hb]

theorem update_error_keep (cfg : Config) (st : MergerState) (s : String) (t : ℚ)
    (v : List ℚ) (err : MergerError) (h : update cfg st s t v = .error err) :
    updateOrKeep cfg st s t v = st := by
  rw [updateOrKeep, h]

theorem pickNearest_single (c2 : ℚ) (p : Vec3) (e : ContactEvent)
    (h : Vec3.sqDist p e.position ≤ c2) :
    pickNearest c2 p [e] = some (e, []) := by
  rw [pickNearest, pickNearest]
  simp [h]

theorem matchCands_single_match (t c2 : ℚ) (s : String) (c : Candidate)
    (e : ContactEvent) (n : ℕ) (h : Vec3.sqDist c.position e.position ≤ c2) :
    matchCands t c2 s [c] [e] n = ([refreshEvent t c e], n) := by
  simp [matchCands, pickNearest_single c2 c.position e h]

theorem matchCands_single_new (t c2 : ℚ) (s : String) (c : Candidate) (n : ℕ) :
    matchCands t c2 s [c] [] n = ([newEvent s n t c], n + 1) := by
  simp [matchCands, pickNearest]

theorem contactsFor_append (s : String) (l1 l2 : List ContactEvent) :
    contactsFor s (l1 ++ l2) = contactsFor s l1 ++ contactsFor s l2 :=
  List.filter_append l1 l2

theorem contactsFor_contactsNotFor (s : String) (l : List ContactEvent) :
    contactsFor s (contactsNotFor s l) = [] := by
  rw [contactsFor, List.filter_eq_nil_iff]
  intro a ha
  have := List.mem_filter.mp ha
  simpa using this.2

/-- After a successful update whose extraction yields exactly one
candidate within the match cutoff of the single tracked event of this
sensor, that sensor's live set is exactly the refreshed event (same id). -/
theorem update_step_refresh (cfg : Config) (st : MergerState) (s : String) (t : ℚ)
    (v : List ℚ) (g : List Taxel) (rs : Readings) (c : Candidate) (e : ContactEvent)
    (hb : bufferUpdate st.geom st.readings s t v = .ok (g, rs))
    (hx : extract cfg s g v = [c])
    (hm : contactsFor s st.contacts = [e])
    (hd : Vec3.sqDist c.position e.position ≤ cfg.cutoff * cfg.cutoff) :
    contactsFor s (updateOrKeep cfg st s t v).contacts = [refreshEvent t c e] := by
  have hes : e.sensor = s :=
    contactsFor_mem_sensor s st.contacts e (by rw [hm]; exact List.mem_singleton_self e)
  rw [updateOrKeep, update_ok_shape cfg st s t v g rs hb]
  simp only
  rw [hx, hm, matchCands_single_match t (cfg.cutoff * cfg.cutoff) s c e st.nextId hd]
  rw [contactsFor_append, contactsFor_contactsNotFor]
  simp [contactsFor, refreshEvent, hes]

/-- After a successful update whose extraction yields exactly one
candidate while this sensor had no tracked event, that sensor's live set
is exactly one freshly minted event. -/
theorem update_step_new (cfg : Config) (st : MergerState) (s : String) (t : ℚ)
    (v : List ℚ) (g : List Taxel) (rs : Readings) (c : Candidate)
    (hb : bufferUpdate st.geom st.readings s t v = .ok (g, rs))
    (hx : extract cfg s g v = [c])
    (hm : contactsFor s st.contacts = []) :
    contactsFor s (updateOrKeep cfg st s t v).contacts = [newEvent s st.nextId t c] := by
  rw [updateOrKeep, update_ok_shape cfg st s t v g rs hb]
  simp only
  rw [hx, hm, matchCands_single_new t (cfg.cutoff * cfg.cutoff) s c st.nextId]
  rw [contactsFor_append, contactsFor_contactsNotFor]
  simp [contactsFor, newEvent]

theorem vec_smul_smul (q r : ℚ) (v : Vec3) : q • (r • v) = (q * r) • v := by
  cases v
  simp [mul_assoc]

theorem vec_one_smul (v : Vec3) : (1 : ℚ) • v = v := by
  cases v
  simp

/-- C4: for every cluster produced by the Contact Extractor's
connected-components pass: a cluster whose weights sum to zero emits no
candidate (silently dropped); otherwise the emitted candidate's position
is the magnitude-weighted centroid of the member positions (stated
division-free), its normal is the re-normalized magnitude-weighted
average of the member normals, and its magnitude is the sum of the member
taxel values. -/
theorem extractor_cluster_formulas (cfg : Config) (src : String)
    (geom : List Taxel) (values : List ℚ) (cl : List ActiveTaxel)
    (hcl : cl ∈ clustersOf cfg (activeTaxels cfg geom values)) :
    (clusterWeight cl = 0 → candOf src cl = none) ∧
    (clusterWeight cl ≠ 0 → ∃ c, candOf src cl = some c ∧
      c ∈ extract cfg src geom values ∧
      clusterWeight cl • c.position = weightedPosSum cl ∧
      c.normal = normalize ((1 / clusterWeight cl) • weightedNormSum cl) ∧
      c.magnitude = (cl.map (fun t => t.value)).sum) := by
  constructor
  · intro hw
    rw [candOf]
    simp [hw]
  · intro hw
    have hc : candOf src cl = some
        { source := src
          position := (1 / clusterWeight cl) • weightedPosSum cl
          normal := normalize ((1 / clusterWeight cl) • weightedNormSum cl)
          magnitude := clusterWeight cl } := by
      rw [candOf]
      simp [hw]
    refine ⟨_, hc, ?_, ?_, rfl, rfl⟩
    · rw [extract]
      exact List.mem_filterMap.mpr ⟨cl, hcl, hc⟩
    · show clusterWeight cl • ((1 / clusterWeight cl) • weightedPosSum cl) = _
      rw [vec_smul_smul, mul_one_div_cancel hw, vec_one_smul]

/-- C9: on every reachable merger state, every live Contact Event carries
as its wrench the force directed along the contact normal scaled by the
contact magnitude, with zero torque — the quantities being reference-frame
vectors, matching the published message's documented convention. -/
theorem wrench_along_normal (cfg : Config) (g0 : GeomTable) (st : MergerState)
    (h : Reachable cfg g0 st) : ∀ e ∈ st.contacts, WrenchOK e := by
  induction h with
  | init =>
      intro e he
      simp [initState] at he
  | step st s t v _ ih =>
      intro e he
      rw [updateOrKeep] at he
      cases hu : update cfg st s t v with
      | error err =>
          rw [hu] at he
          exact ih e he
      | ok st' =>
          rw [hu] at he
          rw [update] at hu
          cases hb : bufferUpdate st.geom st.readings s t v with
          | error err => simp [hb] at hu
          | ok pr =>
              obtain ⟨g, rs⟩ := pr
              simp only [hb, Except.ok.injEq] at hu
              subst hu
              simp only at he
              rcases List.mem_append.mp he with hmem | hmem
              · exact ih e (List.mem_filter.mp hmem).1
              · exact matchCands_forall WrenchOK t (cfg.cutoff * cfg.cutoff) s
                  (extract cfg s g v) (contactsFor s st.contacts) st.nextId
                  (fun x hx => ih x (List.mem_filter.mp hx).1)
                  (fun _ _ _ => ⟨rfl, rfl⟩) (fun _ _ => ⟨rfl, rfl⟩) e hmem

theorem persistence_aux (cfg : Config) (s : String) (steps : List (ℚ × List ℚ)) :
    ∀ (st : MergerState) (e : ContactEvent),
      contactsFor s st.contacts = [e] → KeepsCluster cfg s st steps →
      ∀ k, k ≤ steps.length →
        ∃ e2, contactsFor s (runUpdates cfg s st (steps.take k)).contacts = [e2] ∧
          e2.id = e.id := by
  induction steps with
  | nil =>
      intro st e hm _ k hk
      have : k = 0 := Nat.le_zero.mp hk
      subst this
      exact ⟨e, by simpa [runUpdates] using hm, rfl⟩
  | cons step rest ih =>
      obtain ⟨t, v⟩ := step
      intro st e hm hK k hk
      cases k with
      | zero => exact ⟨e, by simpa [runUpdates] using hm, rfl⟩
      | succ k' =>
          obtain ⟨⟨g, rs, hb, c, hx, hd⟩, hK'⟩ := hK
          have hstep := update_step_refresh cfg st s t v g rs c e hb hx hm
            (hd e (by rw [hm]; exact List.mem_singleton_self e))
          obtain ⟨e2, h1, h2⟩ := ih (updateOrKeep cfg st s t v) (refreshEvent t c e)
            hstep hK' k' (by simpa using hk)
          refine ⟨e2, ?_, ?_⟩
          · rw [List.take_succ_cons, runUpdates]
            exact h1
          · rw [h2]; rfl

/-- C2: identity persistence: starting from a state with no tracked event
for sensor `s`, a nonempty sequence of updates that keeps one spatial
cluster continuously active (one candidate per update, within the match
cutoff of the tracked event's position) leaves, after every one of the
updates, exactly one live Contact Event for that sensor, and its id is the
same string across all the updates. -/
theorem identity_persistence (cfg : Config) (s : String) (st : MergerState)
    (steps : List (ℚ × List ℚ)) (h0 : contactsFor s st.contacts = [])
    (hne : steps ≠ []) (hK : KeepsCluster cfg s st steps) :
    ∃ i : String, ∀ k, 1 ≤ k → k ≤ steps.length →
      ∃ e, contactsFor s (runUpdates cfg s st (steps.take k)).contacts = [e] ∧
        e.id = i := by
  obtain ⟨step, rest, rfl⟩ : ∃ a l, steps = a :: l := by
    cases steps with
    | nil => exact absurd rfl hne
    | cons a l => exact ⟨a, l, rfl⟩
  obtain ⟨t, v⟩ := step
  obtain ⟨⟨g, rs, hb, c, hx, _⟩, hK'⟩ := hK
  have h1 : contactsFor s (updateOrKeep cfg st s t v).contacts =
      [newEvent s st.nextId t c] :=
    update_step_new cfg st s t v g rs c hb hx h0
  refine ⟨mintId st.nextId, ?_⟩
  intro k hk1 hk2
  cases k with
  | zero => omega
  | succ k' =>
      obtain ⟨e2, ha, hid⟩ := persistence_aux cfg s rest (updateOrKeep cfg st s t v)
        (newEvent s st.nextId t c) h1 hK' k' (by simpa using hk2)
      refine ⟨e2, ?_, ?_⟩
      · rw [List.take_succ_cons, runUpdates]
        exact ha
      · rw [hid]; rfl

/-! ### Claim theorems -/

/-- C7: the expiry sweep is idempotent: sweeping the result of
`get_contacts()` again at the same time removes nothing further, so two
`get_contacts()` queries at the same time with no intervening update
return identical results. -/
theorem get_contacts_idempotent (cfg : Config) (now : ℚ) (st : MergerState) :
    expireSweep cfg now (getContacts cfg now st) = getContacts cfg now st := by
  rw [getContacts, expireSweep, expireSweep]
  exact filter_idem _ st.contacts

/-- C1: monotonic expiry: a live Contact Event with `last_update = t0` is
returned by `get_contacts()` at every query time `t ≤ t0 + timeout` and is
absent (removed by the sweep, which drops exactly the events with
`now - last_update > timeout`) at every query time `t > t0 + timeout`. -/
theorem monotonic_expiry (cfg : Config) (st : MergerState) (e : ContactEvent)
    (t0 t : ℚ) (he : e ∈ st.contacts) (h0 : e.last_update = t0) :
    (t ≤ t0 + cfg.timeout → e ∈ getContacts cfg t st) ∧
    (t0 + cfg.timeout < t → e ∉ getContacts cfg t st) := by
  constructor
  · intro h
    rw [getContacts, expireSweep]
    refine List.mem_filter.mpr ⟨he, ?_⟩
    simp only [h0, decide_eq_true_eq]
    linarith
  · intro h hmem
    rw [getContacts, expireSweep] at hmem
    have := (List.mem_filter.mp hmem).2
    simp only [h0, decide_eq_true_eq] at this
    linarith

/-- C3: an `update` whose reading length disagrees with the registered
taxel count for the sensor fails with `SizeMismatch`, the previous state
is kept, and `get_contacts()` afterwards equals its result before the
call. -/
theorem size_mismatch_rejected (cfg : Config) (st : MergerState) (s : String)
    (t now : ℚ) (v : List ℚ) (g : List Taxel)
    (hg : lookupGeom st.geom s = some g) (hlen : v.length ≠ g.length) :
    update cfg st s t v = .error .SizeMismatch ∧
    updateOrKeep cfg st s t v = st ∧
    getContacts cfg now (updateOrKeep cfg st s t v) = getContacts cfg now st := by
  have h1 : update cfg st s t v = .error .SizeMismatch := by
    rw [update, bufferUpdate, hg]
    simp [hlen]
  have h2 := update_error_keep cfg st s t v .SizeMismatch h1
  exact ⟨h1, h2, by rw [h2]⟩

/-- C8: an `update` on a sensor name absent from the geometry table fails
with `UnknownSensor`, propagated from the Value Buffer, and no live
Contact Event is mutated, created or removed: the state and
`get_contacts()` are unchanged. -/
theorem unknown_sensor_rejected (cfg : Config) (st : MergerState) (s : String)
    (t now : ℚ) (v : List ℚ) (hg : lookupGeom st.geom s = none) :
    bufferUpdate st.geom st.readings s t v = .error .UnknownSensor ∧
    update cfg st s t v = .error .UnknownSensor ∧
    updateOrKeep cfg st s t v = st ∧
    getContacts cfg now (updateOrKeep cfg st s t v) = getContacts cfg now st := by
  have h0 : bufferUpdate st.geom st.readings s t v = .error .UnknownSensor := by
    rw [bufferUpdate, hg]
  have h1 : update cfg st s t v = .error .UnknownSensor := by
    rw [update, h0]
  have h2 := update_error_keep cfg st s t v .UnknownSensor h1
  exact ⟨h0, h1, h2, by rw [h2]⟩

/-- C6: an `update` call for one sensor leaves every live Contact Event
of every other sensor unchanged (same id, position, normal, wrench and
`last_update`), whether the call succeeds or fails: the sub-list of events
belonging to other sensors is preserved verbatim. -/
theorem other_sensors_untouched (cfg : Config) (st : MergerState) (s : String)
    (t : ℚ) (v : List ℚ) :
    contactsNotFor s (updateOrKeep cfg st s t v).contacts =
      contactsNotFor s st.contacts := by
  rw [updateOrKeep]
  cases hu : update cfg st s t v with
  | error e => rfl
  | ok st' =>
      rw [update] at hu
      cases hb : bufferUpdate st.geom st.readings s t v with
      | error e => simp [hb] at hu
      | ok pr =>
          obtain ⟨g, rs⟩ := pr
          simp only [hb, Except.ok.injEq] at hu
          subst hu
          simp only
          rw [contactsNotFor, List.filter_append]
          have hnil : (matchCands t (cfg.cutoff * cfg.cutoff) s (extract cfg s g v)
              (contactsFor s st.contacts) st.nextId).1.filter
                (fun e => ¬(e.sensor = s)) = [] := by
            rw [List.filter_eq_nil_iff]
            intro a ha
            have := contactsFor_matchCands t (cfg.cutoff * cfg.cutoff) s
              (extract cfg s g v) (contactsFor s st.contacts) st.nextId
              (contactsFor_mem_sensor s st.contacts) a ha
            simp [this]
          rw [hnil, List.append_nil]
          exact filter_idem _ st.contacts

theorem handler_trace_aux (cfg : Config) (ts : ℚ) (l : List SensorEntry) :
    ∀ (st : MergerState) (acc : List UpdateCall),
      (l.foldl (fun a sd =>
          (updateOrKeep cfg a.1 sd.name ts sd.values,
           a.2 ++ [⟨ts, sd.name, sd.values⟩])) (st, acc)).2
        = acc ++ l.map (fun sd => ⟨ts, sd.name, sd.values⟩) := by
  induction l with
  | nil => intro st acc; simp
  | cons sd l ih =>
      intro st acc
      rw [List.foldl_cons, List.map_cons]
      rw [ih]
      simp

/-! ### Concrete evaluation of the palm scenario -/

theorem palm_lookup : lookupGeom palmGeom "palm" = some palmTaxels := by
  simp [lookupGeom, palmGeom]

theorem palm_clusters :
    clustersOf palmCfg (activeTaxels palmCfg palmTaxels [10, 10, 0, 0]) =
      [palmCluster] := by
  norm_num [activeTaxels, clustersOf, addToClusters, touches, Vec3.sqDist,
    palmCfg, palmTaxels, palmCluster, List.zip, List.zipWith, List.filterMap,
    List.foldl, List.filter, List.any]

theorem palm_extract_hi :
    extract palmCfg "palm" palmTaxels [10, 10, 0, 0] = [palmCand] := by
  rw [extract, palm_clusters]
  norm_num [candOf, clusterWeight, weightedPosSum, weightedNormSum, normalize,
    ratSqrt, isqrt, isqrtAux, Vec3.dot, palmCluster, palmCand, List.filterMap]

theorem palm_extract_lo :
    extract palmCfg "palm" palmTaxels [0, 0, 0, 0] = [] := by
  norm_num [extract, activeTaxels, clustersOf, palmCfg, palmTaxels,
    List.zip, List.zipWith, List.filterMap, List.foldl]

theorem palm_buffer1 :
    bufferUpdate palmGeom [] "palm" 0 [10, 10, 0, 0] =
      .ok (palmTaxels, [("palm", 0, [10, 10, 0, 0])]) := by
  rw [bufferUpdate, palm_lookup]
  simp [setReading, palmTaxels]

theorem palmSt1_eq :
    palmSt1 = { geom := palmGeom, readings := [("palm", 0, [10, 10, 0, 0])],
                contacts := [palmEvent], nextId := 1 } := by
  rw [palmSt1, updateOrKeep,
    update_ok_shape palmCfg (initState palmGeom) "palm" 0 [10, 10, 0, 0]
      palmTaxels [("palm", 0, [10, 10, 0, 0])] (by simpa [initState] using palm_buffer1)]
  simp only [initState]
  norm_num [initState, palm_extract_hi, contactsFor, contactsNotFor,
    matchCands, pickNearest, newEvent, wrenchOf, palmEvent, palmCand, mintId,
    Vec3.zero]

theorem palm_buffer2 :
    bufferUpdate palmGeom [("palm", 0, [10, 10, 0, 0])] "palm" 2 [0, 0, 0, 0] =
      .ok (palmTaxels, [("palm", 2, [0, 0, 0, 0])]) := by
  rw [bufferUpdate, palm_lookup]
  simp [setReading, palmTaxels]

theorem palmSt2_eq :
    palmSt2 = { geom := palmGeom, readings := [("palm", 2, [0, 0, 0, 0])],
                contacts := [palmEvent], nextId := 1 } := by
  have h1 : updateOrKeep palmCfg palmSt1 "palm" 2 [0, 0, 0, 0] = palmSt2 := rfl
  rw [palmSt2, palmSt1_eq] at h1
  rw [palmSt2, palmSt1_eq]
  rw [updateOrKeep,
    update_ok_shape palmCfg _ "palm" 2 [0, 0, 0, 0] palmTaxels
      [("palm", 2, [0, 0, 0, 0])] (by simpa using palm_buffer2)]
  norm_num [palm_extract_lo, contactsFor, contactsNotFor, matchCands, palmEvent]

/-- C5: the end-to-end palm scenario: after the reading `[10, 10, 0, 0]`
at `t = 0` (threshold 1, neighbor radius 3/2), `get_contacts()` returns
exactly one Contact Event, at position `(1/2, 0, 0)` with normal
`(0, 0, 1)` and magnitude `20`; after the further reading `[0, 0, 0, 0]`
at `t = 2` with timeout 1, `get_contacts()` at `t = 2` is empty. -/
theorem palm_end_to_end :
    (getContacts palmCfg 0 palmSt1).map (fun e => (e.position, e.normal, e.magnitude)) =
      [(⟨1 / 2, 0, 0⟩, ⟨0, 0, 1⟩, (20 : ℚ))] ∧
    getContacts palmCfg 2 palmSt2 = [] := by
  constructor
  · rw [getContacts, palmSt1_eq]
    norm_num [expireSweep, palmCfg, palmEvent]
  · rw [getContacts, palmSt2_eq]
    norm_num [expireSweep, palmCfg, palmEvent]

/-- C10: `message_handler` of `merger_node.cpp` invokes `Merger::update`
once per sensor entry of the incoming message, in the order the entries
appear, and passes every call the message's single header stamp as the
timestamp. -/
theorem message_handler_calls (cfg : Config) (st : MergerState) (msg : TactileState) :
    (message_handler cfg st msg).2 =
      msg.sensors.map (fun sd => ⟨msg.stamp, sd.name, sd.values⟩) ∧
    (message_handler cfg st msg).2.length = msg.sensors.length ∧
    ∀ call ∈ (message_handler cfg st msg).2, call.stamp = msg.stamp := by
  have h : (message_handler cfg st msg).2 =
      msg.sensors.map (fun sd => ⟨msg.stamp, sd.name, sd.values⟩) := by
    rw [message_handler]
    rw [handler_trace_aux cfg msg.stamp msg.sensors st []]
    simp
  refine ⟨h, by rw [h, List.length_map], ?_⟩
  intro call hc
  rw [h] at hc
  obtain ⟨sd, _, rfl⟩ := List.mem_map.mp hc
  rfl

/-! ### Witnesses: the claim theorems applied at concrete inputs -/

theorem monotonic_expiry_witness :
    palmEvent ∈ getContacts palmCfg (1 / 2) palmSt1 ∧
    palmEvent ∉ getContacts palmCfg 3 palmSt1 := by
  constructor
  · exact (monotonic_expiry palmCfg palmSt1 palmEvent 0 (1 / 2)
      (by rw [palmSt1_eq]; exact List.mem_singleton_self palmEvent) rfl).1
      (by norm_num [palmCfg])
  · exact (monotonic_expiry palmCfg palmSt1 palmEvent 0 3
      (by rw [palmSt1_eq]; exact List.mem_singleton_self palmEvent) rfl).2
      (by norm_num [palmCfg])

theorem size_mismatch_witness :
    update palmCfg (initState palmGeom) "palm" 0 [1, 2] = .error .SizeMismatch ∧
    updateOrKeep palmCfg (initState palmGeom) "palm" 0 [1, 2] = initState palmGeom ∧
    getContacts palmCfg 0 (updateOrKeep palmCfg (initState palmGeom) "palm" 0 [1, 2]) =
      getContacts palmCfg 0 (initState palmGeom) :=
  size_mismatch_rejected palmCfg (initState palmGeom) "palm" 0 0 [1, 2] palmTaxels
    (by simpa [initState] using palm_lookup) (by simp [palmTaxels])

theorem unknown_sensor_witness :
    bufferUpdate (initState palmGeom).geom (initState palmGeom).readings "wrist" 0 [1]
      = .error .UnknownSensor ∧
    update palmCfg (initState palmGeom) "wrist" 0 [1] = .error .UnknownSensor ∧
    updateOrKeep palmCfg (initState palmGeom) "wrist" 0 [1] = initState palmGeom ∧
    getContacts palmCfg 0 (updateOrKeep palmCfg (initState palmGeom) "wrist" 0 [1]) =
      getContacts palmCfg 0 (initState palmGeom) :=
  unknown_sensor_rejected palmCfg (initState palmGeom) "wrist" 0 0 [1]
    (by simp [initState, lookupGeom, palmGeom])

theorem extractor_cluster_witness :
    ∃ c, candOf "palm" palmCluster = some c ∧
      c ∈ extract palmCfg "palm" palmTaxels [10, 10, 0, 0] ∧
      clusterWeight palmCluster • c.position = weightedPosSum palmCluster ∧
      c.normal = normalize ((1 / clusterWeight palmCluster) • weightedNormSum palmCluster) ∧
      c.magnitude = (palmCluster.map (fun t => t.value)).sum :=
  (extractor_cluster_formulas palmCfg "palm" palmTaxels [10, 10, 0, 0] palmCluster
      (by rw [palm_clusters]; exact List.mem_singleton_self palmCluster)).2
    (by norm_num [clusterWeight, palmCluster])

theorem palm_keeps : KeepsCluster palmCfg "palm" (initState palmGeom) palmSteps := by
  have hst1 : updateOrKeep palmCfg (initState palmGeom) "palm" 0 [10, 10, 0, 0] =
      { geom := palmGeom, readings := [("palm", 0, [10, 10, 0, 0])],
        contacts := [palmEvent], nextId := 1 } := palmSt1_eq
  rw [palmSteps]
  refine ⟨⟨palmTaxels, [("palm", 0, [10, 10, 0, 0])],
    by simpa [initState] using palm_buffer1, palmCand,
    by simpa [initState] using palm_extract_hi,
    by simp [initState, contactsFor]⟩, ?_, trivial⟩
  rw [hst1]
  refine ⟨palmTaxels, [("palm", 1, [10, 10, 0, 0])], ?_, palmCand, ?_, ?_⟩
  · rw [bufferUpdate]
    simp only
    rw [palm_lookup]
    simp [setReading, palmTaxels]
  · simpa using palm_extract_hi
  · intro e he
    simp only [contactsFor, List.filter] at he
    norm_num [palmEvent] at he
    subst he
    norm_num [Vec3.sqDist, palmCand, palmEvent, palmCfg]

theorem identity_persistence_witness :
    ∃ i : String, ∀ k, 1 ≤ k → k ≤ palmSteps.length →
      ∃ e, contactsFor "palm"
        (runUpdates palmCfg "palm" (initState palmGeom) (palmSteps.take k)).contacts
          = [e] ∧ e.id = i :=
  identity_persistence palmCfg "palm" (initState palmGeom) palmSteps
    (by simp [initState, contactsFor]) (by simp [palmSteps]) palm_keeps

theorem wrench_along_normal_witness : WrenchOK palmEvent := by
  have hr : Reachable palmCfg palmGeom palmSt1 :=
    Reachable.step (initState palmGeom) "palm" 0 [10, 10, 0, 0] Reachable.init
  exact wrench_along_normal palmCfg palmGeom palmSt1 hr palmEvent
    (by rw [palmSt1_eq]; exact List.mem_singleton_self palmEvent)

end Tactile
